import Mathlib

/-!
Verification development for the `terraform-pr-generator` CLI (package `main`,
single file `main.go`).  The definitions below are a shallow embedding of the
program's core: target partitioning, group execution, error aggregation, the
line-oriented plan scanner, report assembly and rendering, and the top-level
pipeline control flow around plan generation and markdown generation.
-/

deriving instance DecidableEq for Except

namespace TFPRGen

/-! ## Strings: substring containment (Go `strings.Contains`) and line splitting -/

/-- Does `pat` occur as a prefix of `s` (character-wise)?  Building block for
substring search. -/
def matchesHere : List Char → List Char → Bool
  | [], _ => true
  | _ :: _, [] => false
  | p :: ps, c :: cs => p == c && matchesHere ps cs

/-- Does `pat` occur anywhere inside `s` (leftmost scan)?  Embeds Go
`strings.Contains(s, pat)` (argument order swapped: pattern first here). -/
def occursIn (pat : List Char) : List Char → Bool
  | [] => matchesHere pat []
  | c :: cs => matchesHere pat (c :: cs) || occursIn pat cs

/-- Go `strings.Contains(s, pat)`. -/
def strContains (s pat : String) : Bool := occursIn pat.data s.data

/-- Go `strings.Split(s, "\n")` specialised to the single-character separator
used in `processPlansFile` (main.go:372): the parts between newlines, empty
parts kept, one more part than there are newlines. -/
def splitLinesAux : List Char → List Char → List String
  | [], acc => [String.mk acc.reverse]
  | c :: cs, acc =>
    if c == '\n' then String.mk acc.reverse :: splitLinesAux cs []
    else splitLinesAux cs (c :: acc)

/-- Split a buffer into lines, Go `strings.Split(contentStr, "\n")`. -/
def splitLines (s : String) : List String := splitLinesAux s.data []

/-- Go `strings.Join(lines, "\n")` (main.go:413). -/
def joinLines : List String → String
  | [] => ""
  | [l] => l
  | l :: ls => l ++ "\n" ++ joinLines ls

/-- Sequential concatenation of strings, modelling consecutive writes to one
file handle (the Go code writes pieces one after another). -/
def concatAll : List String → String
  | [] => ""
  | s :: ss => s ++ concatAll ss

/-! ## GroupPartitioner (main.go:237-245, `runTargetedPlans`)

The loop `for _, plan := range affectedPlans { if strings.Contains(plan,
"govcloud") { govcloudPlans = append(...) } else { commercialPlans =
append(...) } }`, preserving input order within each group. -/

/-- Partition targets into (commercial, govcloud) by the `"govcloud"`
substring test, preserving relative order (main.go:239-245). -/
def partitionTargets : List String → List String × List String
  | [] => ([], [])
  | t :: ts =>
    let rest := partitionTargets ts
    if strContains t "govcloud" then (rest.1, t :: rest.2)
    else (t :: rest.1, rest.2)

/-! ## ExecutionGroup, targeted mode (main.go:292-314, `runTargetedPlanGroup`)

The function creates the artifact file, then sequentially runs
`kitman tg plan --wd <planDir> --local --pr` per target; on the first failure
it returns `fmt.Errorf("failed to run plan for %s: %v", planDir, err)` with
the file holding the outputs written so far; on each success it writes the
output followed by `"\n"`.  The executor is abstracted as a function from the
target to `Except err output`; the `invoked` field records which targets had
their executor started, in order. -/

/-- Result of one targeted group run: the artifact file content written so
far, the list of targets whose executor invocation was started (in order),
and `none` on success or `some msg` with the formatted error. -/
structure GroupRunResult where
  fileContent : String
  invoked : List String
  outcome : Option String
deriving DecidableEq, Repr

/-- The error message format of main.go:307. -/
def planFailureMsg (planDir err : String) : String :=
  "failed to run plan for " ++ planDir ++ ": " ++ err

/-- Sequential per-target execution loop of `runTargetedPlanGroup`
(main.go:300-311); `acc` is the file content written so far and `inv` the
targets already invoked. -/
def runTargetedPlanGroup (ex : String → Except String String) :
    List String → String → List String → GroupRunResult
  | [], acc, inv => ⟨acc, inv, none⟩
  | p :: ps, acc, inv =>
    match ex p with
    | Except.error e => ⟨acc, inv ++ [p], some (planFailureMsg p e)⟩
    | Except.ok out => runTargetedPlanGroup ex ps (acc ++ (out ++ "\n")) (inv ++ [p])

/-! ## ConcurrentOrchestrator error aggregation (main.go:226-233 and 282-289)

Both `runPlanAll` and `runTargetedPlans` end with the identical two-check
sequence: `if commercialErr != nil { return fmt.Errorf("commercial plans
failed: %v", commercialErr) }; if govcloudErr != nil { return
fmt.Errorf("govcloud plans failed: %v", govcloudErr) }; return nil`. -/

/-- The orchestrator's aggregation of the two group error variables after
`wg.Wait()` (main.go:226-233, identically main.go:282-289). -/
def aggregateGroupErrors (cErr gErr : Option String) : Option String :=
  match cErr with
  | some c => some ("commercial plans failed: " ++ c)
  | none =>
    match gErr with
    | some g => some ("govcloud plans failed: " ++ g)
    | none => none

/-! ## PlanTextScanner marker patterns (main.go:361-368)

`envRegex` is `/organizations/([^/]+)/` for commercial and `(govcloud-[^/]+)`
for govcloud; `regionRegex` is `/([a-z]{2}-[a-z]+-[0-9])/` for commercial and
`(us-gov-[a-z]+-[0-9])` for govcloud.  `FindStringSubmatch` returns the
leftmost match; the code uses capture group 1.  The models below scan
positions left to right and at each position apply the pattern with its
greedy character classes (`[^/]+`, `[a-z]+` are runs bounded by the following
literal, so greedy matching needs no backtracking here). -/

/-- `[a-z]` of the Go regexes (byte range `a`..`z`). -/
def isLowerAlpha (c : Char) : Bool := decide (97 ≤ c.toNat ∧ c.toNat ≤ 122)

/-- `[0-9]` of the Go regexes. -/
def isDigitChar (c : Char) : Bool := decide (48 ≤ c.toNat ∧ c.toNat ≤ 57)

/-- `[^/]*` greedy run. -/
def takeNonSlash (cs : List Char) : List Char := cs.takeWhile (fun c => !(c == '/'))

/-- Leftmost match of `/organizations/([^/]+)/`, capture group 1
(main.go:361). -/
def envMatchCommercialAux : List Char → Option String
  | [] => none
  | c :: cs =>
    if matchesHere "/organizations/".data (c :: cs) then
      let rest := (c :: cs).drop 15
      let run := takeNonSlash rest
      if run.length > 0 && ((rest.drop run.length).take 1 == ['/']) then
        some (String.mk run)
      else envMatchCommercialAux cs
    else envMatchCommercialAux cs

/-- Leftmost match of `(govcloud-[^/]+)`, capture group 1 (main.go:363). -/
def envMatchGovcloudAux : List Char → Option String
  | [] => none
  | c :: cs =>
    if matchesHere "govcloud-".data (c :: cs) then
      let rest := (c :: cs).drop 9
      let run := takeNonSlash rest
      if run.length > 0 then some (String.mk ("govcloud-".data ++ run))
      else envMatchGovcloudAux cs
    else envMatchGovcloudAux cs

/-- Match of `/([a-z]{2}-[a-z]+-[0-9])/` anchored at the current position,
capture group 1 (main.go:366). -/
def regionCommercialHere : List Char → Option String
  | sl :: a :: b :: dash :: rest =>
    if sl == '/' && isLowerAlpha a && isLowerAlpha b && dash == '-' then
      let run := rest.takeWhile isLowerAlpha
      match rest.drop run.length with
      | d2 :: dg :: sl2 :: _ =>
        if run.length > 0 && d2 == '-' && isDigitChar dg && sl2 == '/' then
          some (String.mk ([a, b, '-'] ++ run ++ ['-', dg]))
        else none
      | _ => none
    else none
  | _ => none

/-- Leftmost match of the commercial region regex over a line. -/
def regionMatchCommercialAux : List Char → Option String
  | [] => none
  | c :: cs =>
    match regionCommercialHere (c :: cs) with
    | some s => some s
    | none => regionMatchCommercialAux cs

/-- Match of `(us-gov-[a-z]+-[0-9])` anchored at the current position,
capture group 1 (main.go:368). -/
def regionGovHere (cs : List Char) : Option String :=
  if matchesHere "us-gov-".data cs then
    let rest := cs.drop 7
    let run := rest.takeWhile isLowerAlpha
    match rest.drop run.length with
    | d2 :: dg :: _ =>
      if run.length > 0 && d2 == '-' && isDigitChar dg then
        some (String.mk ("us-gov-".data ++ run ++ ['-', dg]))
      else none
    | _ => none
  else none

/-- Leftmost match of the govcloud region regex over a line. -/
def regionMatchGovAux : List Char → Option String
  | [] => none
  | c :: cs =>
    match regionGovHere (c :: cs) with
    | some s => some s
    | none => regionMatchGovAux cs

/-- `envRegex.FindStringSubmatch(line)[1]` for the group kind selected by
`isGovcloud` (main.go:361-364, 380-382). -/
def envMatch (isGovcloud : Bool) (line : String) : Option String :=
  if isGovcloud then envMatchGovcloudAux line.data else envMatchCommercialAux line.data

/-- `regionRegex.FindStringSubmatch(line)[1]` for the group kind selected by
`isGovcloud` (main.go:366-369, 383-385). -/
def regionMatch (isGovcloud : Bool) (line : String) : Option String :=
  if isGovcloud then regionMatchGovAux line.data else regionMatchCommercialAux line.data

/-- Sticky update of `currentEnv` (main.go:380-382). -/
def envUpd (isGovcloud : Bool) (cur line : String) : String :=
  match envMatch isGovcloud line with
  | some e => e
  | none => cur

/-- Sticky update of `currentRegion` (main.go:383-385). -/
def regionUpd (isGovcloud : Bool) (cur line : String) : String :=
  match regionMatch isGovcloud line with
  | some r => r
  | none => cur

/-! ## PlanTextScanner state machine (main.go:374-419) -/

/-- One extracted (environment, region, action-block) record. -/
structure ActionRecord where
  environment : String
  region : String
  blockText : String
deriving DecidableEq, Repr

/-- The scanner's mutable loop state: the two sticky context variables, the
accumulating block buffer and the in-block flag (main.go:374-376). -/
structure ScanState where
  currentEnv : String
  currentRegion : String
  planLines : List String
  inPlanSection : Bool
deriving DecidableEq, Repr

/-- Initial scanner state: both contexts empty, no buffer, outside any
block. -/
def initScanState : ScanState := ⟨"", "", [], false⟩

/-- The action-block header phrase (main.go:388). -/
def headerPhrase : String := "Terraform will perform the following actions:"

/-- The block-closing test of main.go:399: the line contains `"Plan:"` and at
least one of the three change-count phrases. -/
def closeCond (line : String) : Bool :=
  strContains line "Plan:" &&
    (strContains line "to add" || strContains line "to change" || strContains line "to destroy")

/-- One iteration of the scanner loop body (main.go:378-418) on one line:
marker updates first (both always evaluated), then the header check (which
`continue`s, so it takes precedence over the close check), then, when inside
a block, append the line and possibly close, emitting a record exactly when
both context variables are non-empty. -/
def stepLine (isGovcloud : Bool) (st : ScanState) (line : String) :
    ScanState × Option ActionRecord :=
  let e1 := envUpd isGovcloud st.currentEnv line
  let r1 := regionUpd isGovcloud st.currentRegion line
  if strContains line headerPhrase then
    (⟨e1, r1, [line], true⟩, none)
  else if st.inPlanSection then
    if closeCond line then
      (⟨e1, r1, [], false⟩,
        if (e1 != "") && (r1 != "") then
          some ⟨e1, r1, joinLines (st.planLines ++ [line])⟩
        else none)
    else
      (⟨e1, r1, st.planLines ++ [line], true⟩, none)
  else
    (⟨e1, r1, st.planLines, false⟩, none)

/-- Run the scanner over a list of lines, collecting emitted records in
order.  In the Go code each emission immediately updates the `environments`
map (main.go:400-414); here the emissions are collected and folded by
`buildEnvironments` below, in the same order, which is observationally the
same assembly. -/
def scanLines (isGovcloud : Bool) : ScanState → List String → List ActionRecord
  | _, [] => []
  | st, l :: ls =>
    match stepLine isGovcloud st l with
    | (st2, some r) => r :: scanLines isGovcloud st2 ls
    | (st2, none) => scanLines isGovcloud st2 ls

/-- Scan a whole buffer's lines from the initial state. -/
def scanRecords (isGovcloud : Bool) (lines : List String) : List ActionRecord :=
  scanLines isGovcloud initScanState lines

/-! ## ReportAssembler (main.go:371, 400-414, 421-440) -/

/-- One environment's accumulated data: Go's `Environment` struct
(main.go:25-29); the `region -> plan content` map is an association list
updated with last-write-wins semantics. -/
structure Environment where
  name : String
  regions : List String
  plans : List (String × String)
deriving DecidableEq, Repr

/-- Go map read `env.Plans[region]` (first matching key). -/
def getPlan : List (String × String) → String → Option String
  | [], _ => none
  | (k, v) :: ps, r => if k == r then some v else getPlan ps r

/-- Go map assignment `env.Plans[region] = text`: replace the existing entry
or add a new one. -/
def setPlan : List (String × String) → String → String → List (String × String)
  | [], r, v => [(r, v)]
  | (k, x) :: ps, r, v =>
    if k == r then (k, v) :: ps else (k, x) :: setPlan ps r v

/-- The repository's own `contains` helper (main.go:445-452). -/
def containsItem (slice : List String) (item : String) : Bool :=
  slice.any (fun s => s == item)

/-- The per-record update of one environment entry (main.go:409-413): append
the region if not already present, then assign the plan text. -/
def updateEnv (e : Environment) (region text : String) : Environment :=
  { e with
    regions := if containsItem e.regions region then e.regions else e.regions ++ [region]
    plans := setPlan e.plans region text }

/-- Insert one emitted record into the `environments` map (main.go:400-414):
create the entry if absent (`environments[currentEnv] == nil`), then update
it.  The association list stands for the Go map; list order is immaterial
because rendering sorts the names. -/
def addRecord : List Environment → ActionRecord → List Environment
  | [], r => [updateEnv ⟨r.environment, [], []⟩ r.region r.blockText]
  | e :: es, r =>
    if e.name == r.environment then updateEnv e r.region r.blockText :: es
    else e :: addRecord es r

/-- Fold the full record stream into the environment grouping, in emission
order. -/
def buildEnvironments (rs : List ActionRecord) : List Environment :=
  rs.foldl addRecord []

/-- Go map read `environments[envName]`. -/
def lookupEnv : List Environment → String → Option Environment
  | [], _ => none
  | e :: es, n => if e.name == n then some e else lookupEnv es n

/-- The stored block for one (environment, region) pair of the assembled
grouping. -/
def lookupPlan (envs : List Environment) (e r : String) : Option String :=
  match lookupEnv envs e with
  | some en => getPlan en.plans r
  | none => none

/-- `sort.Strings`: ascending lexicographic sort (main.go:426, 432).  Since
`String`'s order is linear, the ascending sorted permutation is unique, so
insertion sort is an exact model of Go's sort here. -/
def sortStrings (l : List String) : List String :=
  List.insertionSort (fun a b => a ≤ b) l

/-- One region's collapsible block (main.go:434-438): emitted only when the
plans map has a non-empty entry for the region. -/
def renderRegionBlock (region : String) (plan? : Option String) : String :=
  match plan? with
  | some content =>
    if content != "" then
      "<details>\n<summary>" ++ region ++ "</summary>\n\n```bash\n" ++ content
        ++ "\n```\n\n</details>\n\n"
    else ""
  | none => ""

/-- One environment's section (main.go:430-439): header line, then the
region blocks in ascending region order. -/
def renderEnvironment (moduleName : String) (e : Environment) : String :=
  "## [environment: " ++ e.name ++ "] - [command: kitman tg plan_all] - [module: "
      ++ moduleName ++ "]\n\n"
    ++ concatAll ((sortStrings e.regions).map
        (fun region => renderRegionBlock region (getPlan e.plans region)))

/-- Render the section for one collected environment name
(main.go:428-440). -/
def renderEnvByName (moduleName : String) (envs : List Environment) (n : String) : String :=
  match lookupEnv envs n with
  | some e => renderEnvironment moduleName e
  | none => ""

/-- Render all sections from an explicitly given iteration order of the
collected environment names (the Go `for name := range environments` order,
which is arbitrary), sorted before emission (main.go:422-428). -/
def renderFromNames (moduleName : String) (envs : List Environment)
    (names : List String) : String :=
  concatAll ((sortStrings names).map (renderEnvByName moduleName envs))

/-- The full rendering pass of `processPlansFile`'s output section
(main.go:421-440), with the names collected in the association list's
insertion order. -/
def renderReport (moduleName : String) (envs : List Environment) : String :=
  renderFromNames moduleName envs (envs.map (fun e => e.name))

/-- The commercial empty-group sentinel text (main.go:262, checked at
main.go:357). -/
def sentinelCommercial : String := "No commercial plans needed"

/-- The govcloud empty-group sentinel text (main.go:277, checked at
main.go:357). -/
def sentinelGovcloud : String := "No GovCloud plans needed"

/-- `processPlansFile` (main.go:349-443) on a group file's content: skip
empty content (the Go code also skips an unreadable file and returns `nil`),
skip any content containing either sentinel (both sentinels are tested
against both files), otherwise scan and render.  The return value is the
text appended to the report file; the Go function never returns a non-nil
error from these paths. -/
def processPlansFile (moduleName : String) (isGovcloud : Bool) (content : String) : String :=
  if content == "" then ""
  else if strContains content sentinelCommercial || strContains content sentinelGovcloud then ""
  else renderReport moduleName (buildEnvironments (scanRecords isGovcloud (splitLines content)))

/-! ## Top-level pipeline around the orchestrator (main.go:124-153, 326-347) -/

/-- `generatePRMarkdown` (main.go:326-347): the report file content is the
fixed heading followed by the processed commercial file and then the
processed govcloud file. -/
def generatePRMarkdown (moduleName commercialContent govcloudContent : String) : String :=
  "**Terraform plan**\n\n"
    ++ processPlansFile moduleName false commercialContent
    ++ processPlansFile moduleName true govcloudContent

/-- Observable outcome of `runPlanGenerator` from the plan-running step on
(main.go:124-153): which group artifacts were written, whether the report
was generated (and its content), and the process exit code. -/
structure PipelineResult where
  commercialArtifact : Option String
  govcloudArtifact : Option String
  report : Option String
  exitCode : Nat
deriving DecidableEq, Repr

/-- The error variable of one group (`commercialErr`/`govcloudErr`). -/
def errPart : Except String String → Option String
  | Except.error e => some e
  | Except.ok _ => none

/-- The artifact content written by one group, present exactly when the
group succeeded (`runCommand` writes the file only on success,
main.go:316-324; both goroutines always run to completion before
`wg.Wait()` returns). -/
def okPart : Except String String → Option String
  | Except.ok o => some o
  | Except.error _ => none

/-- `runPlanGenerator` from main.go:133 on, driven by the two group results:
if the orchestrator's aggregated error is non-nil the process prints the
error and exits with status 1 *before* `generatePRMarkdown` is called
(main.go:133-136); otherwise the markdown is generated from the two artifact
files and the process exits 0. -/
def runPlanGeneratorAfter (moduleName : String) (cRes gRes : Except String String) :
    PipelineResult :=
  match aggregateGroupErrors (errPart cRes) (errPart gRes) with
  | some _ => ⟨okPart cRes, okPart gRes, none, 1⟩
  | none =>
    ⟨okPart cRes, okPart gRes,
      some (generatePRMarkdown moduleName ((okPart cRes).getD "") ((okPart gRes).getD "")), 0⟩

/-! ## Concrete inputs used by counterexamples and witnesses -/

/-- A commercial buffer whose second action-block header arrives while the
scanner is still inside the first block. -/
def nestedHeaderContent : String :=
  "/organizations/staging/us-east-1/module\n" ++ headerPhrase
    ++ "\n  # first resource\n" ++ headerPhrase
    ++ "\n  # second resource\nPlan: 2 to add, 0 to change, 0 to destroy."

/-- The block text actually emitted for `nestedHeaderContent`: only the part
from the second header on. -/
def nestedHeaderEmitted : String :=
  headerPhrase ++ "\n  # second resource\nPlan: 2 to add, 0 to change, 0 to destroy."

/-- A line that contains both the action-block header phrase and the
`Plan:`/`to add` closing phrases. -/
def headerAndCloseLine : String :=
  "Terraform will perform the following actions: Plan: 1 to add"

/-- A commercial buffer producing two environments (staging first,
production second in scan order). -/
def twoEnvContent : String :=
  "/organizations/staging/us-east-1/a\n" ++ headerPhrase
    ++ "\nPlan: 1 to add, 0 to change, 0 to destroy.\n"
    ++ "/organizations/production/eu-west-1/b\n" ++ headerPhrase
    ++ "\nPlan: 1 to add, 0 to change, 0 to destroy."

/-- A commercial-group buffer that happens to contain the GovCloud sentinel
text inside otherwise genuine plan output. -/
def sentinelInsideContent : String :=
  "/organizations/staging/us-east-1/a\n" ++ headerPhrase
    ++ "\n  output = \"No GovCloud plans needed\"\nPlan: 1 to add, 0 to change, 0 to destroy."

/-- An executor stub used by witnesses: succeeds on `"t1"` with `"o1"`,
fails on `"bad"` with `"boom"`, succeeds elsewhere with `"zz"`. -/
def exStub : String → Except String String := fun q =>
  if q == "t1" then Except.ok "o1"
  else if q == "bad" then Except.error "boom"
  else Except.ok "zz"

/-- The outputs of `exStub` on its successful targets. -/
def outsStub : String → String := fun q => if q == "t1" then "o1" else "zz"

/-! ## Helper lemmas: strings and options -/

theorem strAppendNil (s : String) : s ++ "" = s := by
  cases s with
  | mk d => show String.mk (d ++ []) = String.mk d
            rw [List.append_nil]

theorem strNilAppend (s : String) : "" ++ s = s := rfl

theorem strAppendAssoc (a b c : String) : a ++ b ++ c = a ++ (b ++ c) := by
  cases a with
  | mk da =>
    cases b with
    | mk db =>
      cases c with
      | mk dc => show String.mk (da ++ db ++ dc) = String.mk (da ++ (db ++ dc))
                 rw [List.append_assoc]

theorem optOrNoneRight {α : Type} (o : Option α) : o.or none = o := by
  cases o <;> rfl

theorem optOrAssoc {α : Type} (a b c : Option α) : (a.or b).or c = a.or (b.or c) := by
  cases a <;> rfl

theorem getLastQCons {α : Type} (a : α) (l : List α) :
    (a :: l).getLast? = l.getLast?.or (some a) := by
  induction l generalizing a with
  | nil => rfl
  | cons b bs ih =>
    rw [List.getLast?_cons_cons, ih b]
    cases bs.getLast? <;> rfl

/-! ## Claim C5: partitioning -/

theorem partitionTargets_eq_filter (l : List String) :
    partitionTargets l =
      (l.filter (fun t => !(strContains t "govcloud")),
       l.filter (fun t => strContains t "govcloud")) := by
  induction l with
  | nil => rfl
  | cons t ts ih =>
    cases h : strContains t "govcloud" <;>
      simp [partitionTargets, ih, List.filter_cons, h]

/-- Claim C5: the partition of targets into (commercial, restricted) is a
true order-preserving partition: the two lists together are a permutation of
the input, they are disjoint, a target lands in the restricted list iff it
contains the `"govcloud"` marker (and in the commercial list iff it does
not), and each list is a sublist of the input (hence preserves relative
input order). -/
theorem partition_partitions_targets (l : List String) :
    (((partitionTargets l).1 ++ (partitionTargets l).2).Perm l)
    ∧ List.Disjoint (partitionTargets l).1 (partitionTargets l).2
    ∧ (∀ t, t ∈ (partitionTargets l).2 ↔ t ∈ l ∧ strContains t "govcloud" = true)
    ∧ (∀ t, t ∈ (partitionTargets l).1 ↔ t ∈ l ∧ strContains t "govcloud" = false)
    ∧ (partitionTargets l).1.Sublist l ∧ (partitionTargets l).2.Sublist l := by
  rw [partitionTargets_eq_filter]
  refine ⟨?_, ?_, ?_, ?_, List.filter_sublist l, List.filter_sublist l⟩
  · have h := List.filter_append_perm (fun t => !(strContains t "govcloud")) l
    simpa using h
  · intro t ht1 ht2
    have h1 := (List.mem_filter.mp ht1).2
    have h2 := (List.mem_filter.mp ht2).2
    simp at h1
    rw [h1] at h2
    exact absurd h2 (by simp)
  · intro t
    constructor
    · intro ht
      exact ⟨(List.mem_filter.mp ht).1, (List.mem_filter.mp ht).2⟩
    · intro ⟨h1, h2⟩
      exact List.mem_filter.mpr ⟨h1, h2⟩
  · intro t
    constructor
    · intro ht
      refine ⟨(List.mem_filter.mp ht).1, ?_⟩
      have := (List.mem_filter.mp ht).2
      simpa using this
    · intro ⟨h1, h2⟩
      exact List.mem_filter.mpr ⟨h1, by simp [h2]⟩

/-! ## Claims C8/C9: the targeted group runner -/

theorem runGroup_ok_aux (ex : String → Except String String) (outs : String → String)
    (plans : List String) (acc : String) (inv : List String)
    (h : ∀ p ∈ plans, ex p = Except.ok (outs p)) :
    runTargetedPlanGroup ex plans acc inv =
      ⟨acc ++ concatAll (plans.map (fun p => outs p ++ "\n")), inv ++ plans, none⟩ := by
  induction plans generalizing acc inv with
  | nil => simp [runTargetedPlanGroup, concatAll, strAppendNil]
  | cons p ps ih =>
    have hp := h p (by simp)
    simp only [runTargetedPlanGroup, hp]
    rw [ih (acc ++ (outs p ++ "\n")) (inv ++ [p]) (fun q hq => h q (by simp [hq]))]
    simp [concatAll, strAppendAssoc]

theorem runGroup_fail_aux (ex : String → Except String String) (outs : String → String)
    (pre : List String) (t e : String) (post : List String) (acc : String) (inv : List String)
    (h : ∀ p ∈ pre, ex p = Except.ok (outs p)) (ht : ex t = Except.error e) :
    runTargetedPlanGroup ex (pre ++ t :: post) acc inv =
      ⟨acc ++ concatAll (pre.map (fun p => outs p ++ "\n")), inv ++ (pre ++ [t]),
        some (planFailureMsg t e)⟩ := by
  induction pre generalizing acc inv with
  | nil => simp [runTargetedPlanGroup, ht, concatAll, strAppendNil]
  | cons p ps ih =>
    have hp := h p (by simp)
    rw [List.cons_append]
    simp only [runTargetedPlanGroup, hp]
    rw [ih (acc ++ (outs p ++ "\n")) (inv ++ [p]) (fun q hq => h q (by simp [hq]))]
    simp [concatAll, strAppendAssoc]

/-- Claim C8: in targeted mode the group fails fast: if every target before
`t` succeeds and `t`'s executor invocation fails with `e`, the group returns
the failure message naming `t` and `e`, the executor is never started for
any target after `t` (the invocation trace is exactly `pre ++ [t]`), and the
artifact file already holds the outputs of the targets before `t`. -/
theorem targetedGroup_failFast (ex : String → Except String String) (outs : String → String)
    (pre : List String) (t e : String) (post : List String)
    (h : ∀ p ∈ pre, ex p = Except.ok (outs p)) (ht : ex t = Except.error e) :
    runTargetedPlanGroup ex (pre ++ t :: post) "" [] =
      ⟨concatAll (pre.map (fun p => outs p ++ "\n")), pre ++ [t],
        some (planFailureMsg t e)⟩ := by
  have := runGroup_fail_aux ex outs pre t e post "" [] h ht
  simpa [strNilAppend] using this

theorem targetedGroup_failFast_witness :
    (∀ p ∈ ["t1"], exStub p = Except.ok (outsStub p))
    ∧ exStub "bad" = Except.error "boom"
    ∧ runTargetedPlanGroup exStub (["t1"] ++ "bad" :: ["t3"]) "" [] =
        ⟨concatAll (["t1"].map (fun p => outsStub p ++ "\n")), ["t1"] ++ ["bad"],
          some (planFailureMsg "bad" "boom")⟩ :=
  ⟨by decide, by decide,
    targetedGroup_failFast exStub outsStub ["t1"] "bad" "boom" ["t3"] (by decide) (by decide)⟩

/-- Claim C9, counterexample: with a single target whose output is
`"hello"`, the captured buffer is `"hello\n"`, not `"hello"`: a newline is
written after the last output too, so the separator does not appear only
between outputs. -/
theorem targetedGroup_separator_cex :
    (runTargetedPlanGroup (fun _ => Except.ok "hello") ["t1"] "" []).fileContent = "hello\n"
    ∧ (runTargetedPlanGroup (fun _ => Except.ok "hello") ["t1"] "" []).fileContent ≠ "hello" := by
  decide

/-- Claim C9 as amended: when all n targets succeed, the captured buffer is
the concatenation, in input order, of each per-target output followed by one
newline — including after the last output (main.go:309-310 writes the
newline unconditionally after every output). -/
theorem targetedGroup_buffer_trailing_newline (ex : String → Except String String)
    (outs : String → String) (plans : List String)
    (h : ∀ p ∈ plans, ex p = Except.ok (outs p)) :
    runTargetedPlanGroup ex plans "" [] =
      ⟨concatAll (plans.map (fun p => outs p ++ "\n")), plans, none⟩ := by
  have := runGroup_ok_aux ex outs plans "" [] h
  simpa [strNilAppend] using this

theorem targetedGroup_buffer_trailing_newline_witness :
    (∀ p ∈ ["t1"], exStub p = Except.ok (outsStub p))
    ∧ runTargetedPlanGroup exStub ["t1"] "" [] =
        ⟨concatAll (["t1"].map (fun p => outsStub p ++ "\n")), ["t1"], none⟩ :=
  ⟨by decide, targetedGroup_buffer_trailing_newline exStub outsStub ["t1"] (by decide)⟩

/-! ## Claim C2: aggregation when both groups fail -/

/-- Claim C2, counterexample: when the commercial group fails with cause
`"AAAA"` and the govcloud group with cause `"BBBB"`, the orchestrator's
surfaced error names only the commercial cause; the govcloud cause does not
occur in it. -/
theorem bothFail_drops_govcloud_cause_cex :
    aggregateGroupErrors (some "AAAA") (some "BBBB") = some "commercial plans failed: AAAA"
    ∧ strContains "commercial plans failed: AAAA" "BBBB" = false := by
  decide

/-- Claim C2 as amended: when both groups fail, the surfaced error reports
only the commercial group's cause (the commercial check at main.go:226
returns first); the govcloud cause is dropped. -/
theorem bothFail_reports_commercial_cause (c g : String) :
    aggregateGroupErrors (some c) (some g) = some ("commercial plans failed: " ++ c) := rfl

/-! ## Claim C1: single-group failure -/

/-- Claim C1, counterexample: commercial fails, govcloud succeeds — the
govcloud artifact is written, but the run exits with status 1 without
generating any report, so no report section is produced for the successful
group. -/
theorem singleGroupFailure_report_cex :
    runPlanGeneratorAfter "m" (Except.error "boom") (Except.ok "stuff") =
      ⟨none, some "stuff", none, 1⟩ := rfl

/-- Claim C1 as amended: for every pair of group outcomes with exactly one
failure, the run reports overall failure (exit status 1) and the successful
group's raw artifact file is still produced intact, but `runPlanGenerator`
exits before `generatePRMarkdown` (main.go:133-136), so report generation
does not run and no report section is produced for either group. -/
theorem singleGroupFailure_keeps_artifact_skips_report (m e out : String) :
    runPlanGeneratorAfter m (Except.error e) (Except.ok out) = ⟨none, some out, none, 1⟩
    ∧ runPlanGeneratorAfter m (Except.ok out) (Except.error e) = ⟨some out, none, none, 1⟩ :=
  ⟨rfl, rfl⟩

/-! ## Claim C10: the sentinel check -/

/-- Claim C10: the sentinel test is a substring test over the whole buffer
and is not specific to the group being processed: any group file content
containing either sentinel anywhere — for either value of the group flag —
makes `processPlansFile` treat the entire file as the empty-group
placeholder: it contributes no records and no report sections (output
`""`), and no error is raised (the Go function returns `nil` on this path). -/
theorem sentinel_skips_whole_file (m : String) (g : Bool) (content : String)
    (h : (strContains content sentinelCommercial || strContains content sentinelGovcloud) = true) :
    processPlansFile m g content = "" := by
  unfold processPlansFile
  split
  · rfl
  · simp [h]

theorem sentinel_skips_whole_file_witness :
    (strContains sentinelInsideContent sentinelCommercial
      || strContains sentinelInsideContent sentinelGovcloud) = true
    ∧ processPlansFile "mod" false sentinelInsideContent = "" :=
  ⟨by decide, sentinel_skips_whole_file "mod" false sentinelInsideContent (by decide)⟩

/-! ## Claim C3: a second header inside a block -/

/-- Claim C3, counterexample: a buffer with a second header line arriving
while the scanner is inside a block.  The block emitted at the closing
`Plan:` line starts at the *second* header and does not contain the first
block's line `"# first resource"`: the accumulating buffer is reset by the
unguarded header check (main.go:388-392), it does not keep growing across
both blocks. -/
theorem nested_header_discards_first_block_cex :
    scanRecords false (splitLines nestedHeaderContent) =
      [⟨"staging", "us-east-1", nestedHeaderEmitted⟩]
    ∧ strContains nestedHeaderEmitted "# first resource" = false := by
  decide

/-- Claim C3 as amended: a new header line encountered while already inside
an action block *resets* the accumulating buffer to just that header line
(discarding the lines accumulated before it) and keeps the scanner inside
the block, so the block emitted at the next closing `Plan:` line contains
only the content from the second header on. -/
theorem header_inside_block_resets_buffer (g : Bool) (st : ScanState) (line : String)
    (_hin : st.inPlanSection = true) (hhdr : strContains line headerPhrase = true) :
    stepLine g st line =
      (⟨envUpd g st.currentEnv line, regionUpd g st.currentRegion line, [line], true⟩, none) := by
  simp [stepLine, hhdr]

theorem header_inside_block_resets_buffer_witness :
    (⟨"e", "r", ["a", "b"], true⟩ : ScanState).inPlanSection = true
    ∧ strContains headerPhrase headerPhrase = true
    ∧ stepLine false ⟨"e", "r", ["a", "b"], true⟩ headerPhrase =
        (⟨envUpd false (⟨"e", "r", ["a", "b"], true⟩ : ScanState).currentEnv headerPhrase,
          regionUpd false (⟨"e", "r", ["a", "b"], true⟩ : ScanState).currentRegion headerPhrase,
          [headerPhrase], true⟩, none) :=
  ⟨rfl, by decide,
    header_inside_block_resets_buffer false ⟨"e", "r", ["a", "b"], true⟩ headerPhrase rfl (by decide)⟩

/-! ## Claim C4: closing an action block -/

/-- Claim C4, counterexample: a line that contains the fixed `Plan:` phrase
together with `to add`, processed while inside an action block with both
context variables non-empty.  The claim requires the block to close and a
record to be emitted; the code's header check takes precedence
(main.go:388-392 `continue`s before the close check is reached), so the
block stays open and nothing is emitted. -/
theorem close_header_precedence_cex :
    closeCond headerAndCloseLine = true
    ∧ (⟨"staging", "us-east-1", ["  # res"], true⟩ : ScanState).inPlanSection = true
    ∧ (⟨"staging", "us-east-1", ["  # res"], true⟩ : ScanState).currentEnv ≠ ""
    ∧ (⟨"staging", "us-east-1", ["  # res"], true⟩ : ScanState).currentRegion ≠ ""
    ∧ (stepLine false ⟨"staging", "us-east-1", ["  # res"], true⟩ headerAndCloseLine).1.inPlanSection
        = true
    ∧ (stepLine false ⟨"staging", "us-east-1", ["  # res"], true⟩ headerAndCloseLine).2 = none := by
  decide

/-- Claim C4 as amended: for every line processed while inside an action
block that does not contain the action-block header phrase (a header line
instead restarts the buffer and keeps the block open), the block is closed
exactly when the line contains `"Plan:"` together with at least one of
`"to add"`, `"to change"`, `"to destroy"`; on closing, a record carrying the
context values *as updated by any marker match on this same line* is
emitted iff both are non-empty, otherwise the block is discarded with no
error; in either case the flag resets and the buffer is cleared, and the
close itself leaves the context values unchanged (only marker matches
update them). -/
theorem close_step_characterization (g : Bool) (st : ScanState) (line : String)
    (hin : st.inPlanSection = true) (hhdr : strContains line headerPhrase = false) :
    (closeCond line = true →
      stepLine g st line =
        (⟨envUpd g st.currentEnv line, regionUpd g st.currentRegion line, [], false⟩,
          if (envUpd g st.currentEnv line != "") && (regionUpd g st.currentRegion line != "") then
            some ⟨envUpd g st.currentEnv line, regionUpd g st.currentRegion line,
              joinLines (st.planLines ++ [line])⟩
          else none))
    ∧ (closeCond line = false →
      stepLine g st line =
        (⟨envUpd g st.currentEnv line, regionUpd g st.currentRegion line,
          st.planLines ++ [line], true⟩, none)) := by
  constructor <;> intro hc <;> simp [stepLine, hhdr, hin, hc]

theorem close_step_characterization_witness :
    (⟨"staging", "us-east-1", ["  # x"], true⟩ : ScanState).inPlanSection = true
    ∧ strContains "Plan: 1 to add, 0 to change, 0 to destroy." headerPhrase = false
    ∧ ((closeCond "Plan: 1 to add, 0 to change, 0 to destroy." = true →
        stepLine false ⟨"staging", "us-east-1", ["  # x"], true⟩
            "Plan: 1 to add, 0 to change, 0 to destroy." =
          (⟨envUpd false (⟨"staging", "us-east-1", ["  # x"], true⟩ : ScanState).currentEnv
              "Plan: 1 to add, 0 to change, 0 to destroy.",
            regionUpd false (⟨"staging", "us-east-1", ["  # x"], true⟩ : ScanState).currentRegion
              "Plan: 1 to add, 0 to change, 0 to destroy.", [], false⟩,
            if (envUpd false (⟨"staging", "us-east-1", ["  # x"], true⟩ : ScanState).currentEnv
                  "Plan: 1 to add, 0 to change, 0 to destroy." != "")
                && (regionUpd false
                      (⟨"staging", "us-east-1", ["  # x"], true⟩ : ScanState).currentRegion
                      "Plan: 1 to add, 0 to change, 0 to destroy." != "") then
              some ⟨envUpd false
                  (⟨"staging", "us-east-1", ["  # x"], true⟩ : ScanState).currentEnv
                  "Plan: 1 to add, 0 to change, 0 to destroy.",
                regionUpd false
                  (⟨"staging", "us-east-1", ["  # x"], true⟩ : ScanState).currentRegion
                  "Plan: 1 to add, 0 to change, 0 to destroy.",
                joinLines ((⟨"staging", "us-east-1", ["  # x"], true⟩ : ScanState).planLines
                  ++ ["Plan: 1 to add, 0 to change, 0 to destroy."])⟩
            else none))
      ∧ (closeCond "Plan: 1 to add, 0 to change, 0 to destroy." = false →
        stepLine false ⟨"staging", "us-east-1", ["  # x"], true⟩
            "Plan: 1 to add, 0 to change, 0 to destroy." =
          (⟨envUpd false (⟨"staging", "us-east-1", ["  # x"], true⟩ : ScanState).currentEnv
              "Plan: 1 to add, 0 to change, 0 to destroy.",
            regionUpd false (⟨"staging", "us-east-1", ["  # x"], true⟩ : ScanState).currentRegion
              "Plan: 1 to add, 0 to change, 0 to destroy.",
            (⟨"staging", "us-east-1", ["  # x"], true⟩ : ScanState).planLines
              ++ ["Plan: 1 to add, 0 to change, 0 to destroy."], true⟩, none))) :=
  ⟨rfl, by decide,
    close_step_characterization false ⟨"staging", "us-east-1", ["  # x"], true⟩
      "Plan: 1 to add, 0 to change, 0 to destroy." rfl (by decide)⟩

/-! ## Claim C6: last-write-wins assembly -/

theorem getPlan_setPlan (ps : List (String × String)) (k v r : String) :
    getPlan (setPlan ps k v) r = if k == r then some v else getPlan ps r := by
  induction ps with
  | nil => simp [setPlan, getPlan]
  | cons hd tl ih =>
    obtain ⟨a, x⟩ := hd
    by_cases h1 : a = k
    · subst h1
      by_cases h2 : a = r <;> simp [setPlan, getPlan, h2]
    · by_cases h2 : a = r
      · have h3 : ¬k = r := fun hh => h1 (h2.trans hh.symm)
        have h4 : ¬r = k := fun hh => h3 hh.symm
        simp [setPlan, getPlan, h1, h2, h3, h4]
      · simp [setPlan, getPlan, h1, h2, ih]

theorem keys_setPlan (ps : List (String × String)) (k v : String) :
    (setPlan ps k v).map Prod.fst =
      if k ∈ ps.map Prod.fst then ps.map Prod.fst else ps.map Prod.fst ++ [k] := by
  induction ps with
  | nil => simp [setPlan]
  | cons hd tl ih =>
    obtain ⟨a, x⟩ := hd
    by_cases h1 : a = k
    · subst h1
      simp [setPlan]
    · by_cases h2 : k ∈ tl.map Prod.fst <;>
        simp [setPlan, h1, h2, ih, Ne.symm h1]

theorem nodup_keys_setPlan (ps : List (String × String)) (k v : String)
    (h : (ps.map Prod.fst).Nodup) : ((setPlan ps k v).map Prod.fst).Nodup := by
  rw [keys_setPlan]
  split
  · exact h
  · next hk => simp [List.nodup_append, h, hk]

theorem updateEnv_name (e : Environment) (region text : String) :
    (updateEnv e region text).name = e.name := rfl

theorem lookupEnv_cons (e0 : Environment) (es : List Environment) (n : String) :
    lookupEnv (e0 :: es) n = if e0.name == n then some e0 else lookupEnv es n := rfl

theorem lookupPlan_cons (e0 : Environment) (es : List Environment) (e r : String) :
    lookupPlan (e0 :: es) e r =
      if e0.name == e then getPlan e0.plans r else lookupPlan es e r := by
  by_cases h : e0.name = e <;> simp [lookupPlan, lookupEnv_cons, h]

theorem lookupPlan_addRecord (envs : List Environment) (x : ActionRecord) (e r : String) :
    lookupPlan (addRecord envs x) e r =
      if x.environment == e && x.region == r then some x.blockText
      else lookupPlan envs e r := by
  induction envs with
  | nil =>
    by_cases h1 : x.environment = e <;> by_cases h2 : x.region = r <;>
      simp [addRecord, lookupPlan, lookupEnv, updateEnv, getPlan, setPlan, h1, h2]
  | cons e0 es ih =>
    by_cases h1 : e0.name = x.environment
    · have ha : addRecord (e0 :: es) x = updateEnv e0 x.region x.blockText :: es := by
        simp [addRecord, h1]
      by_cases h2 : e0.name = e
      · have hxe : x.environment = e := h1.symm.trans h2
        rw [ha, lookupPlan_cons, updateEnv_name, lookupPlan_cons]
        simp only [updateEnv]
        rw [getPlan_setPlan]
        by_cases h3 : x.region = r <;> simp [h2, h3, hxe]
      · have hxe : ¬x.environment = e := fun hh => h2 (h1.trans hh)
        rw [ha, lookupPlan_cons, updateEnv_name, lookupPlan_cons]
        simp [h2, hxe]
    · have ha : addRecord (e0 :: es) x = e0 :: addRecord es x := by
        simp [addRecord, h1]
      by_cases h2 : e0.name = e
      · have hxe : ¬x.environment = e := fun hh => h1 (h2.trans hh.symm)
        rw [ha, lookupPlan_cons, lookupPlan_cons]
        simp [h2, hxe]
      · rw [ha, lookupPlan_cons, lookupPlan_cons, ih]
        simp [h2]

theorem lookupPlan_foldl (rs : List ActionRecord) (acc : List Environment) (e r : String) :
    lookupPlan (rs.foldl addRecord acc) e r =
      (((rs.filter (fun x => x.environment == e && x.region == r)).map
        (fun x => x.blockText)).getLast?).or (lookupPlan acc e r) := by
  induction rs generalizing acc with
  | nil => simp [List.foldl]
  | cons x rs ih =>
    rw [List.foldl_cons, ih, lookupPlan_addRecord]
    by_cases hx : (x.environment == e && x.region == r) = true
    · simp only [List.filter_cons, hx, if_pos, List.map_cons, getLastQCons, optOrAssoc]
      rfl
    · rw [List.filter_cons, if_neg (by simpa using hx)]
      simp only [hx]
      simp

theorem names_addRecord (envs : List Environment) (x : ActionRecord) :
    (addRecord envs x).map (fun e => e.name) =
      if x.environment ∈ envs.map (fun e => e.name) then envs.map (fun e => e.name)
      else envs.map (fun e => e.name) ++ [x.environment] := by
  induction envs with
  | nil => simp [addRecord, updateEnv]
  | cons e0 es ih =>
    by_cases h1 : e0.name = x.environment
    · have ha : addRecord (e0 :: es) x = updateEnv e0 x.region x.blockText :: es := by
        simp [addRecord, h1]
      rw [ha, ← h1]
      simp [updateEnv_name]
    · have hne : ¬x.environment = e0.name := fun hh => h1 hh.symm
      have ha : addRecord (e0 :: es) x = e0 :: addRecord es x := by
        simp [addRecord, h1]
      by_cases h2 : x.environment ∈ es.map (fun e => e.name) <;>
        simp [ha, h2, ih, hne]

theorem names_nodup_addRecord (envs : List Environment) (x : ActionRecord)
    (h : (envs.map (fun e => e.name)).Nodup) :
    ((addRecord envs x).map (fun e => e.name)).Nodup := by
  rw [names_addRecord]
  split
  · exact h
  · next hk => simp [List.nodup_append, h, hk]

theorem plans_nodup_addRecord (envs : List Environment) (x : ActionRecord)
    (h : ∀ e ∈ envs, ((e.plans.map Prod.fst).Nodup)) :
    ∀ e ∈ addRecord envs x, ((e.plans.map Prod.fst).Nodup) := by
  induction envs with
  | nil =>
    intro e he
    simp [addRecord] at he
    subst he
    simp [updateEnv, setPlan]
  | cons e0 es ih =>
    intro e he
    by_cases h1 : e0.name = x.environment
    · have ha : addRecord (e0 :: es) x = updateEnv e0 x.region x.blockText :: es := by
        simp [addRecord, h1]
      rw [ha] at he
      rcases List.mem_cons.mp he with he | he
      · subst he
        exact nodup_keys_setPlan _ _ _ (h e0 (by simp))
      · exact h e (List.mem_cons_of_mem _ he)
    · have ha : addRecord (e0 :: es) x = e0 :: addRecord es x := by
        simp [addRecord, h1]
      rw [ha] at he
      rcases List.mem_cons.mp he with he | he
      · rw [he]
        exact h e0 (by simp)
      · exact ih (fun q hq => h q (List.mem_cons_of_mem _ hq)) e he

theorem names_nodup_foldl (rs : List ActionRecord) (acc : List Environment)
    (h : (acc.map (fun e => e.name)).Nodup) :
    ((rs.foldl addRecord acc).map (fun e => e.name)).Nodup := by
  induction rs generalizing acc with
  | nil => exact h
  | cons x rs ih => exact ih (addRecord acc x) (names_nodup_addRecord acc x h)

theorem plans_nodup_foldl (rs : List ActionRecord) (acc : List Environment)
    (h : ∀ e ∈ acc, ((e.plans.map Prod.fst).Nodup)) :
    ∀ e ∈ rs.foldl addRecord acc, ((e.plans.map Prod.fst).Nodup) := by
  induction rs generalizing acc with
  | nil => exact h
  | cons x rs ih => exact ih (addRecord acc x) (plans_nodup_addRecord acc x h)

/-- Claim C6: the assembled grouping stores at most one block per
(environment, region) pair — the environment names are duplicate-free and
each environment's region-keyed plan map has duplicate-free keys — the
stored block for a pair is exactly the `blockText` of the *last* record with
that pair in scan order, and for two records with the same pair the
rendered report is identical to the one built from the later record alone
(the earlier block is invisible in the report). -/
theorem assembly_last_write_wins (rs : List ActionRecord) (e r m : String)
    (r1 r2 : ActionRecord)
    (h1 : r1.environment = r2.environment) (h2 : r1.region = r2.region) :
    ((buildEnvironments rs).map (fun en => en.name)).Nodup
    ∧ (∀ en ∈ buildEnvironments rs, ((en.plans.map Prod.fst).Nodup))
    ∧ lookupPlan (buildEnvironments rs) e r =
        ((rs.filter (fun x => x.environment == e && x.region == r)).map
          (fun x => x.blockText)).getLast?
    ∧ renderReport m (buildEnvironments [r1, r2]) = renderReport m (buildEnvironments [r2]) := by
  refine ⟨names_nodup_foldl rs [] (by simp), plans_nodup_foldl rs [] (by simp), ?_, ?_⟩
  · have h := lookupPlan_foldl rs [] e r
    simpa [lookupPlan, lookupEnv, optOrNoneRight] using h
  · obtain ⟨e1, g1, t1⟩ := r1
    obtain ⟨e2, g2, t2⟩ := r2
    have h1' : e1 = e2 := h1
    have h2' : g1 = g2 := h2
    subst h1'
    subst h2'
    have hb : buildEnvironments [⟨e1, g1, t1⟩, ⟨e1, g1, t2⟩] =
        buildEnvironments [⟨e1, g1, t2⟩] := by
      simp [buildEnvironments, addRecord, updateEnv, containsItem, setPlan]
    rw [hb]

theorem assembly_last_write_wins_witness :
    (⟨"env1", "reg1", "OLD"⟩ : ActionRecord).environment
        = (⟨"env1", "reg1", "NEW"⟩ : ActionRecord).environment
    ∧ (⟨"env1", "reg1", "OLD"⟩ : ActionRecord).region
        = (⟨"env1", "reg1", "NEW"⟩ : ActionRecord).region
    ∧ renderReport "mod" (buildEnvironments [⟨"env1", "reg1", "OLD"⟩, ⟨"env1", "reg1", "NEW"⟩])
        = renderReport "mod" (buildEnvironments [⟨"env1", "reg1", "NEW"⟩]) :=
  ⟨rfl, rfl,
    (assembly_last_write_wins [] "" "" "mod" ⟨"env1", "reg1", "OLD"⟩ ⟨"env1", "reg1", "NEW"⟩
      rfl rfl).2.2.2⟩

/-! ## Claim C7: deterministic, sorted rendering -/

theorem sortStrings_sorted (l : List String) :
    List.Sorted (fun a b => a ≤ b) (sortStrings l) :=
  List.sorted_insertionSort _ l

theorem sortStrings_perm (l : List String) : (sortStrings l).Perm l :=
  List.perm_insertionSort _ l

theorem sortStrings_congr {l1 l2 : List String} (h : l1.Perm l2) :
    sortStrings l1 = sortStrings l2 :=
  List.eq_of_perm_of_sorted ((sortStrings_perm l1).trans (h.trans (sortStrings_perm l2).symm))
    (sortStrings_sorted l1) (sortStrings_sorted l2)

/-- Claim C7: the parse-and-render stage is a pure function of the input
buffer (two runs are byte-identical by definition), and its output does not
depend on the order in which the environment names are collected from the
map: rendering from *any* permutation of the collected names yields the
identical bytes, because both pass through the ascending sort; moreover the
environment sections are emitted in ascending lexicographic name order and,
within each environment, the region blocks in ascending lexicographic
region order. -/
theorem render_deterministic_sorted (m : String) (g : Bool) (content : String)
    (names2 : List String)
    (h : names2.Perm
      ((buildEnvironments (scanRecords g (splitLines content))).map (fun e => e.name))) :
    renderFromNames m (buildEnvironments (scanRecords g (splitLines content))) names2 =
      renderReport m (buildEnvironments (scanRecords g (splitLines content)))
    ∧ List.Sorted (fun a b => a ≤ b)
        (sortStrings
          ((buildEnvironments (scanRecords g (splitLines content))).map (fun e => e.name)))
    ∧ ∀ e ∈ buildEnvironments (scanRecords g (splitLines content)),
        List.Sorted (fun a b => a ≤ b) (sortStrings e.regions) := by
  refine ⟨?_, sortStrings_sorted _, fun e _ => sortStrings_sorted _⟩
  unfold renderReport renderFromNames
  rw [sortStrings_congr h]

theorem render_deterministic_sorted_witness :
    (["production", "staging"] : List String).Perm
      ((buildEnvironments (scanRecords false (splitLines twoEnvContent))).map (fun e => e.name))
    ∧ renderFromNames "mod" (buildEnvironments (scanRecords false (splitLines twoEnvContent)))
        ["production", "staging"] =
      renderReport "mod" (buildEnvironments (scanRecords false (splitLines twoEnvContent))) :=
  ⟨by decide,
    (render_deterministic_sorted "mod" false twoEnvContent ["production", "staging"]
      (by decide)).1⟩

end TFPRGen
